import Mathlib

/-!
Shallow embedding of the Hürriyet packet analyzer frontend (src/App.tsx).

The component keeps React state: the interface list, the selected
interface, the `isCapturing` flag, the last `CaptureStatus`, the retained
packet list (capped at 1000, newest first) and the three filter fields.
Event listeners and button handlers mutate that state; `filteredPackets`
and the table rows derive the displayed data.  Each definition below is a
direct translation of the corresponding TypeScript.
-/

namespace Hurriyet

/-- The decoded packet record (interface `PacketInfo` in App.tsx).
JavaScript numbers holding lengths, ports, ttl etc. are non-negative
integers here; optional fields become `Option`. -/
structure PacketInfo where
  timestamp : String
  length : Nat
  protocol : String
  source : String
  destination : String
  source_port : Option Nat := none
  dest_port : Option Nat := none
  flags : Option String := none
  sequence : Option Nat := none
  ttl : Nat
  identification : Nat
  deriving DecidableEq

/-- Lifecycle status payload (interface `CaptureStatus` in App.tsx). -/
structure CaptureStatus where
  success : Bool
  message : String
  interface_name : Option String := none
  deriving DecidableEq

/-- Interface descriptor (interface `InterfaceInfo` in App.tsx). -/
structure InterfaceInfo where
  name : String
  description : Option String := none
  mac : Option String := none
  ipv4 : List String
  deriving DecidableEq

/-- The `filters` state object: three substring filter fields. -/
structure Filters where
  protocol : String
  source : String
  destination : String
  deriving DecidableEq

/-- The React state of the `App` component, one field per `useState`. -/
structure AppState where
  interfaces : List InterfaceInfo
  selectedInterface : String
  isCapturing : Bool
  status : Option CaptureStatus
  packets : List PacketInfo
  filters : Filters
  deriving DecidableEq

/-- The initial state: the `useState` initialisers in App.tsx. -/
def initState : AppState :=
  { interfaces := []
    selectedInterface := ""
    isCapturing := false
    status := none
    packets := []
    filters := { protocol := "", source := "", destination := "" } }

/-- One step of the `packet-captured` listener on the packet list:
`[event.payload, ...prev].slice(0, 1000)`. -/
def pushPacket (e : PacketInfo) (prev : List PacketInfo) : List PacketInfo :=
  (e :: prev).take 1000

/-- The `packet-captured` listener: prepend the payload to the packet
list and keep the first 1000 entries. -/
def handlePacketCaptured (e : PacketInfo) (s : AppState) : AppState :=
  { s with packets := pushPacket e s.packets }

/-- Deliver a whole sequence of `packet-captured` events, oldest first,
to an initially empty packet list. -/
def ingest (es : List PacketInfo) : List PacketInfo :=
  es.foldl (fun acc e => pushPacket e acc) []

/-- The `capture-status` listener: `setStatus(event.payload)`, and when
the payload is a failure also `setIsCapturing(false)`. -/
def handleCaptureStatus (ev : CaptureStatus) (s : AppState) : AppState :=
  { s with
    status := some ev
    isCapturing := if ev.success then s.isCapturing else false }

/-- The `startCapture` handler.  `ok` is whether the awaited
`invoke("start_capture", ...)` resolved: on success the handler runs
`setIsCapturing(true); setPackets([])`; on rejection the `catch` block
only logs, leaving the state alone. -/
def startCapture (ok : Bool) (s : AppState) : AppState :=
  if ok then { s with isCapturing := true, packets := [] } else s

/-- The `stopCapture` handler.  `ok` is whether
`invoke("stop_capture")` resolved: on success `setIsCapturing(false)`;
on rejection the `catch` block only logs. -/
def stopCapture (ok : Bool) (s : AppState) : AppState :=
  if ok then { s with isCapturing := false } else s

/-- JavaScript `String.prototype.includes` on character lists: does the
second list occur contiguously inside the first?  The empty needle is
found in every haystack, as in JavaScript. -/
def charsInclude (needle : List Char) : List Char → Bool
  | [] => needle.isEmpty
  | c :: t => needle.isPrefixOf (c :: t) || charsInclude needle t

/-- JavaScript `hay.includes(needle)` for strings. -/
def jsIncludes (hay needle : String) : Bool :=
  charsInclude needle.toList hay.toList

/-- JavaScript `toLowerCase`, as the per-character ASCII case map (the
protocol labels and filter entry at hand are ASCII). -/
def jsToLower (s : String) : String :=
  String.mk (s.toList.map Char.toLower)

/-- The predicate inside `packets.filter(...)` in App.tsx: all three
filter fields must match, an empty field (falsy string) matching
everything; the protocol test lowercases both sides, the address tests
are plain `includes`. -/
def matchesFilters (f : Filters) (p : PacketInfo) : Bool :=
  (f.protocol == "" || jsIncludes (jsToLower p.protocol) (jsToLower f.protocol))
    && (f.source == "" || jsIncludes p.source f.source)
    && (f.destination == "" || jsIncludes p.destination f.destination)

/-- `filteredPackets` from App.tsx, with the packet list and filter
state passed explicitly. -/
def filteredPackets (f : Filters) (packets : List PacketInfo) : List PacketInfo :=
  packets.filter (fun p => matchesFilters f p)

/-- The whitespace characters `parseInt` skips (the common ones; the
timestamps at hand contain none). -/
def jsSpace (c : Char) : Bool :=
  c = ' ' || c = '\t' || c = '\n' || c = '\r'

/-- Numeric value of a digit run, most significant first. -/
def digitsToNat (ds : List Char) : Nat :=
  ds.foldl (fun acc c => acc * 10 + (c.toNat - 48)) 0

/-- JavaScript `parseInt(s)` (decimal): skip leading whitespace, an
optional sign, then read the longest leading digit run; `none` models
`NaN` when no digit follows. -/
def jsParseIntChars (cs : List Char) : Option Int :=
  let t := cs.dropWhile jsSpace
  let rest := if t.head? = some '-' ∨ t.head? = some '+' then t.tail else t
  let ds := rest.takeWhile Char.isDigit
  if ds = [] then none
  else if t.head? = some '-' then some (-(digitsToNat ds : Int))
  else some (digitsToNat ds)

/-- `parseInt` on a Lean string. -/
def jsParseInt (s : String) : Option Int :=
  jsParseIntChars s.toList

/-- The milliseconds value fed to `new Date(...)` in the Time cell:
`parseInt(packet.timestamp) * 1000`; `none` models an invalid date. -/
def renderedTimeMs (p : PacketInfo) : Option Int :=
  (jsParseInt p.timestamp).map (fun n => n * 1000)

/-- The Source cell:
`packet.source` followed by `packet.source_port ? ":port" : ""`.
A JavaScript number is truthy iff it is nonzero, and `undefined` is
falsy, hence the `0`/`none` collapse. -/
def renderSourceCell (p : PacketInfo) : String :=
  p.source ++
    match p.source_port with
    | some n => if n ≠ 0 then ":" ++ toString n else ""
    | none => ""

/-- The Destination cell, symmetric to the Source cell. -/
def renderDestinationCell (p : PacketInfo) : String :=
  p.destination ++
    match p.dest_port with
    | some n => if n ≠ 0 then ":" ++ toString n else ""
    | none => ""

/-- A concrete record used to instantiate the theorems below. -/
def samplePacket : PacketInfo :=
  { timestamp := "1700000000", length := 60, protocol := "TCP",
    source := "10.0.0.1", destination := "10.0.0.2",
    source_port := some 443, dest_port := some 51234,
    ttl := 64, identification := 7 }

/-- A concrete successful status payload. -/
def okStatus : CaptureStatus :=
  { success := true, message := "Capture started", interface_name := some "eth0" }

/-- A concrete record whose ports are present but zero. -/
def zeroPortPacket : PacketInfo :=
  { samplePacket with source_port := some 0, dest_port := some 0 }

/- Helper lemmas shared by the claim theorems. -/

/-- Truncating the appended list before an outer `take n` changes
nothing. -/
theorem take_append_take {α : Type} (xs ys : List α) (n : Nat) :
    (xs ++ ys.take n).take n = (xs ++ ys).take n := by
  rw [List.take_append_eq_append_take, List.take_append_eq_append_take, List.take_take,
    Nat.min_eq_left (Nat.sub_le n xs.length)]

/-- Folding `pushPacket` over events keeps the 1000 most recent records,
newest first, for any starting buffer within capacity. -/
theorem ingest_aux (es : List PacketInfo) :
    ∀ acc : List PacketInfo, acc.length ≤ 1000 →
      es.foldl (fun a e => pushPacket e a) acc = (es.reverse ++ acc).take 1000 := by
  induction es with
  | nil => intro acc h; simpa using (List.take_of_length_le h).symm
  | cons e t ih =>
    intro acc h
    rw [List.foldl_cons, ih (pushPacket e acc) (by simp [pushPacket])]
    show (t.reverse ++ (e :: acc).take 1000).take 1000 = _
    rw [take_append_take, List.reverse_cons, List.append_assoc]
    rfl

/-- The buffer contents after a whole event sequence. -/
theorem ingest_eq (es : List PacketInfo) : ingest es = es.reverse.take 1000 := by
  simpa using ingest_aux es [] (by simp)

/-- A push into a full buffer drops exactly the last (oldest) record. -/
theorem push_full (e : PacketInfo) (l : List PacketInfo) (hl : l.length = 1000) :
    pushPacket e l = e :: l.dropLast := by
  show (e :: l).take 1000 = e :: l.dropLast
  rw [List.dropLast_eq_take, hl]
  rfl

/-- The `includes` test succeeds exactly when the needle occurs
contiguously in the haystack. -/
theorem charsInclude_iff (needle hay : List Char) :
    charsInclude needle hay = true ↔ ∃ l r, hay = l ++ needle ++ r := by
  induction hay with
  | nil =>
    simp only [charsInclude, List.isEmpty_iff]
    constructor
    · rintro rfl; exact ⟨[], [], rfl⟩
    · rintro ⟨l, r, h⟩
      rcases List.append_eq_nil.mp (List.append_eq_nil.mp h.symm).1 with ⟨-, h2⟩
      exact h2
  | cons c t ih =>
    simp only [charsInclude, Bool.or_eq_true, ih, List.isPrefixOf_iff_prefix]
    constructor
    · rintro (⟨r, hr⟩ | ⟨l, r, rfl⟩)
      · exact ⟨[], r, by simpa using hr.symm⟩
      · exact ⟨c :: l, r, rfl⟩
    · rintro ⟨l, r, h⟩
      cases l with
      | nil => exact Or.inl ⟨r, by simpa using h.symm⟩
      | cons x l' =>
        right
        rw [List.cons_append, List.cons_append] at h
        exact ⟨l', r, (List.cons.injEq .. ▸ h).2⟩

/- Theorems.  Each claim of the specification gets one theorem below,
stated over the definitions above. -/

/-- C1: delivering k packet-captured events to the initially empty
buffer retains exactly min(k, 1000) records, namely the most recently
pushed ones newest-first (most recent at index 0), and a push into a
full buffer of 1000 records evicts exactly the oldest record. -/
theorem ingest_window_spec (es : List PacketInfo) (e : PacketInfo)
    (l : List PacketInfo) (hl : l.length = 1000) :
    ingest es = es.reverse.take 1000 ∧
      (ingest es).length = min es.length 1000 ∧
      pushPacket e l = e :: l.dropLast := by
  refine ⟨ingest_eq es, ?_, push_full e l hl⟩
  rw [ingest_eq, List.length_take, List.length_reverse]
  omega

/-- C1 witness: the window property instantiated at a one-event sequence
and a concrete full buffer of 1000 records. -/
theorem ingest_window_spec_witness :
    (List.replicate 1000 samplePacket).length = 1000 ∧
      (ingest [samplePacket] = [samplePacket].reverse.take 1000 ∧
        (ingest [samplePacket]).length = min [samplePacket].length 1000 ∧
        pushPacket samplePacket (List.replicate 1000 samplePacket)
          = samplePacket :: (List.replicate 1000 samplePacket).dropLast) :=
  ⟨List.length_replicate 1000 samplePacket, ingest_window_spec [samplePacket] samplePacket
    (List.replicate 1000 samplePacket) (List.length_replicate 1000 samplePacket)⟩

/-- C2: a record is in the filter result iff it is in the input and all
three sub-predicates match it — an empty sub-predicate matches every
record, the protocol predicate is a case-insensitive (both sides
lowercased) substring occurrence, and the source and destination
predicates are exact substring occurrences — and the result is a
sublist of the input, so the relative order of the records is
preserved.  The embedding is a pure function of the input list, which
is therefore not mutated. -/
theorem filteredPackets_mem_spec (f : Filters) (ps : List PacketInfo) (p : PacketInfo) :
    (p ∈ filteredPackets f ps ↔
        p ∈ ps ∧
          (f.protocol = "" ∨
            ∃ l r, (jsToLower p.protocol).toList
              = l ++ (jsToLower f.protocol).toList ++ r) ∧
          (f.source = "" ∨ ∃ l r, p.source.toList = l ++ f.source.toList ++ r) ∧
          (f.destination = "" ∨
            ∃ l r, p.destination.toList = l ++ f.destination.toList ++ r)) ∧
      (filteredPackets f ps).Sublist ps := by
  refine ⟨?_, List.filter_sublist ps⟩
  rw [filteredPackets, List.mem_filter]
  simp only [matchesFilters, jsIncludes, Bool.and_eq_true, Bool.or_eq_true, beq_iff_eq,
    charsInclude_iff]
  tauto

/-- C5: the filter with all three sub-predicates empty is the identity,
and the filter with protocol sub-predicate "tcp" keeps exactly the
records whose protocol, lowercased, contains "tcp". -/
theorem filteredPackets_identity_tcp (ps : List PacketInfo) :
    filteredPackets { protocol := "", source := "", destination := "" } ps = ps ∧
      filteredPackets { protocol := "tcp", source := "", destination := "" } ps
        = ps.filter (fun p => jsIncludes (jsToLower p.protocol) "tcp") := by
  constructor
  · simp [filteredPackets, matchesFilters]
  · rw [filteredPackets]
    refine List.filter_congr fun p _ => ?_
    simp only [matchesFilters, show jsToLower "tcp" = "tcp" from rfl,
      show ("tcp" == "") = false from rfl, show ("" == "") = true from rfl,
      Bool.false_or, Bool.true_or, Bool.and_true]

/-- C3: after a successful start_capture invocation the retained packet
buffer is empty and the isCapturing flag is true. -/
theorem startCapture_success_spec (s : AppState) :
    (startCapture true s).packets = [] ∧ (startCapture true s).isCapturing = true := by
  simp [startCapture]

/-- C4: a failed start_capture invocation is a no-op on the
caller-visible state: the packet buffer is not cleared and the
isCapturing flag is unchanged (indeed the whole state is unchanged,
whatever the rejection reason was). -/
theorem startCapture_failure_noop (s : AppState) :
    startCapture false s = s := by
  simp [startCapture]

/-- C6: a successful stop_capture invocation sets isCapturing to false,
and a failed one leaves the whole state — in particular the isCapturing
flag and the packet buffer — unchanged. -/
theorem stopCapture_spec (s : AppState) :
    (stopCapture true s).isCapturing = false ∧
      (stopCapture true s).packets = s.packets ∧
      stopCapture false s = s := by
  refine ⟨?_, ?_, ?_⟩ <;> simp [stopCapture]

/-- C7: the capture-status listener stores the payload in the
last-status field, and leaves isCapturing equal to
`payload.success && old`, so a failure payload always forces
isCapturing to false and the UI never believes a failed capture is
still running. -/
theorem captureStatus_listener_spec (ev : CaptureStatus) (s : AppState) :
    (handleCaptureStatus ev s).status = some ev ∧
      (handleCaptureStatus ev s).isCapturing = (ev.success && s.isCapturing) := by
  refine ⟨rfl, ?_⟩
  cases h : ev.success <;> simp [handleCaptureStatus, h]

/-- C9: a capture-status event whose success flag is true changes only
the last-status field; isCapturing, the packet buffer and every other
state field are left unchanged. -/
theorem captureStatus_success_frame (ev : CaptureStatus) (s : AppState)
    (h : ev.success = true) :
    (handleCaptureStatus ev s).status = some ev ∧
      (handleCaptureStatus ev s).isCapturing = s.isCapturing ∧
      (handleCaptureStatus ev s).packets = s.packets ∧
      (handleCaptureStatus ev s).interfaces = s.interfaces ∧
      (handleCaptureStatus ev s).selectedInterface = s.selectedInterface ∧
      (handleCaptureStatus ev s).filters = s.filters := by
  simp [handleCaptureStatus, h]

/-- A digit character is not parse-relevant whitespace and not a sign. -/
theorem digit_excludes {d : Char} (hd : d.isDigit = true) :
    jsSpace d = false ∧ d ≠ '-' ∧ d ≠ '+' := by
  have hne : ∀ c : Char, c.isDigit = false → d ≠ c := fun c hc hdc => by
    subst hdc; rw [hc] at hd; exact Bool.false_ne_true hd
  refine ⟨?_, hne '-' (by decide), hne '+' (by decide)⟩
  simp [jsSpace, hne ' ' (by decide), hne '\t' (by decide), hne '\n' (by decide),
    hne '\r' (by decide)]

/-- The digit run before a dot is exactly what `takeWhile` keeps. -/
theorem takeWhile_digits (ds fs : List Char) (hds : ∀ c ∈ ds, c.isDigit = true) :
    (ds ++ '.' :: fs).takeWhile Char.isDigit = ds := by
  induction ds with
  | nil => simp
  | cons d t ih =>
    rw [List.cons_append, List.takeWhile_cons, if_pos (hds d (by simp))]
    rw [ih (fun c hc => hds c (by simp [hc]))]

/-- The parse of a digit run followed by a dot and anything further
yields the value of the digit run alone. -/
theorem parse_digits_dot (d : Char) (t fs : List Char)
    (hdig : ∀ c ∈ d :: t, c.isDigit = true) :
    jsParseIntChars ((d :: t) ++ '.' :: fs) = some (digitsToNat (d :: t)) := by
  obtain ⟨hsp, hminus, hplus⟩ := digit_excludes (hdig d (by simp))
  have htw : List.takeWhile Char.isDigit (d :: (t ++ '.' :: fs)) = d :: t := by
    simpa [List.cons_append] using takeWhile_digits (d :: t) fs hdig
  simp [jsParseIntChars, List.cons_append, List.dropWhile_cons, hsp, hminus, hplus, htw]

/-- The parse of a bare digit run. -/
theorem parse_digits (d : Char) (t : List Char)
    (hdig : ∀ c ∈ d :: t, c.isDigit = true) :
    jsParseIntChars (d :: t) = some (digitsToNat (d :: t)) := by
  obtain ⟨hsp, hminus, hplus⟩ := digit_excludes (hdig d (by simp))
  have htw : List.takeWhile Char.isDigit (d :: t) = d :: t :=
    List.takeWhile_eq_self_iff.mpr hdig
  simp [jsParseIntChars, List.dropWhile_cons, hsp, hminus, hplus, htw]

/-- C8: the rendered time is `parseInt(timestamp) * 1000` milliseconds,
so a timestamp carrying sub-second precision after a decimal point
renders as the integer part alone — identical to the same record with
the fractional part removed. -/
theorem renderedTime_truncates_subseconds (p : PacketInfo) (ds fs : List Char)
    (hts : p.timestamp = String.mk (ds ++ '.' :: fs))
    (hne : ds ≠ [])
    (hdig : ∀ c ∈ ds, c.isDigit = true) :
    renderedTimeMs p = some ((digitsToNat ds : Int) * 1000) ∧
      renderedTimeMs p = renderedTimeMs { p with timestamp := String.mk ds } := by
  obtain ⟨d, t, rfl⟩ : ∃ d t, ds = d :: t := by
    cases ds with
    | nil => exact absurd rfl hne
    | cons d t => exact ⟨d, t, rfl⟩
  have h1 := parse_digits_dot d t fs hdig
  have h2 := parse_digits d t hdig
  constructor
  · rw [renderedTimeMs, jsParseInt, hts]
    show (jsParseIntChars ((d :: t) ++ '.' :: fs)).map (fun n => n * 1000)
        = some ((digitsToNat (d :: t) : Int) * 1000)
    rw [h1]
    rfl
  · rw [renderedTimeMs, renderedTimeMs, jsParseInt, jsParseInt, hts]
    show (jsParseIntChars ((d :: t) ++ '.' :: fs)).map (fun n => n * 1000)
        = (jsParseIntChars (d :: t)).map (fun n => n * 1000)
    rw [h1, h2]

/-- C8 witness: the record with timestamp "1.5" renders as 1000
milliseconds, exactly as the same record with timestamp "1". -/
theorem renderedTime_truncates_subseconds_witness :
    ({ samplePacket with timestamp := "1.5" } : PacketInfo).timestamp
        = String.mk (['1'] ++ '.' :: ['5']) ∧
      (['1'] : List Char) ≠ [] ∧ (∀ c ∈ (['1'] : List Char), c.isDigit = true) ∧
      (renderedTimeMs { samplePacket with timestamp := "1.5" }
          = some ((digitsToNat ['1'] : Int) * 1000) ∧
        renderedTimeMs { samplePacket with timestamp := "1.5" }
          = renderedTimeMs { samplePacket with timestamp := String.mk ['1'] }) :=
  ⟨rfl, by decide, by decide,
    renderedTime_truncates_subseconds { samplePacket with timestamp := "1.5" }
      ['1'] ['5'] rfl (by decide) (by decide)⟩

/-- C10: a record with source_port (and dest_port) equal to 0 renders
its Source (and Destination) cell without the ":port" suffix, exactly
as the same record with the port absent, because the JavaScript
ternary tests the number for truthiness and 0 is falsy. -/
theorem zero_port_renders_bare (p : PacketInfo)
    (hs : p.source_port = some 0) (hd : p.dest_port = some 0) :
    renderSourceCell p = p.source ∧
      renderDestinationCell p = p.destination ∧
      renderSourceCell p = renderSourceCell { p with source_port := none } ∧
      renderDestinationCell p = renderDestinationCell { p with dest_port := none } := by
  simp [renderSourceCell, renderDestinationCell, hs, hd]

/-- C10 witness: the zero-port record renders bare addresses. -/
theorem zero_port_renders_bare_witness :
    zeroPortPacket.source_port = some 0 ∧ zeroPortPacket.dest_port = some 0 ∧
      (renderSourceCell zeroPortPacket = zeroPortPacket.source ∧
        renderDestinationCell zeroPortPacket = zeroPortPacket.destination ∧
        renderSourceCell zeroPortPacket
          = renderSourceCell { zeroPortPacket with source_port := none } ∧
        renderDestinationCell zeroPortPacket
          = renderDestinationCell { zeroPortPacket with dest_port := none }) :=
  ⟨rfl, rfl, zero_port_renders_bare zeroPortPacket rfl rfl⟩

/-- C9 witness: the frame property instantiated at a concrete successful
status and the initial state. -/
theorem captureStatus_success_frame_witness :
    okStatus.success = true ∧
      ((handleCaptureStatus okStatus initState).status = some okStatus ∧
        (handleCaptureStatus okStatus initState).isCapturing = initState.isCapturing ∧
        (handleCaptureStatus okStatus initState).packets = initState.packets ∧
        (handleCaptureStatus okStatus initState).interfaces = initState.interfaces ∧
        (handleCaptureStatus okStatus initState).selectedInterface
          = initState.selectedInterface ∧
        (handleCaptureStatus okStatus initState).filters = initState.filters) :=
  ⟨rfl, captureStatus_success_frame okStatus initState rfl⟩

end Hurriyet
